import Mathlib

/-!
Verification of the Langflow frontend slice.

Shallow embedding of the UI handlers, hooks and constants referenced by the
specification, together with theorems settling each spec claim.

Conventions:
* JavaScript strings are modelled as Lean `String`.
* JavaScript values that can also be `null`/`undefined` are modelled either
  as `Option` or by a dedicated inductive carrying those cases.
* React components are modelled by total functions from their props to a
  datatype describing the rendered tree (only the parts the claims mention).
* Event handlers are modelled as pure functions from the component state to
  the new state plus the emitted effects.
-/

namespace Langflow

/-! ## C3: `GenericErrorComponent`
    (src/unnamed/part_004, `switch (healthCheckTimeout)`)

The component switches on the string `healthCheckTimeout`; the JS value may
also be `null` or `undefined`, which fall to the `default` branch. -/

/-- A JS value that is either a string, `null` or `undefined`
(the possible values of the `healthCheckTimeout` prop). -/
inductive JSStr where
  | str (s : String)
  | null
  | undef
deriving DecidableEq, Repr

/-- The render result of `GenericErrorComponent`, keeping only its shape. -/
inductive ErrorRender where
  | fetchErrorComponent
  | timeoutErrorComponent
  | emptyFragment
deriving DecidableEq, Repr

/-- `GenericErrorComponent` from src/unnamed/part_004: a `switch` on
`healthCheckTimeout` with cases `"serverDown"`, `"timeout"` and `default`. -/
def GenericErrorComponent (healthCheckTimeout : JSStr) : ErrorRender :=
  match healthCheckTimeout with
  | .str "serverDown" => .fetchErrorComponent
  | .str "timeout" => .timeoutErrorComponent
  | _ => .emptyFragment

/-! ## C4: `handleFilterUsers` (src/src/frontend/src/pages/AdminPage/index.tsx) -/

/-- A user record; only the fields the admin filter reads. -/
structure Users where
  id : String
  username : String
deriving DecidableEq, Repr

/-- JS `a.toLowerCase()`, modelled character-wise. -/
def strToLower (s : String) : String :=
  ⟨s.data.map Char.toLower⟩

/-- JS `a.includes(b)` on strings: `b` occurs as a contiguous substring. -/
def strIncludes (hay needle : String) : Bool :=
  decide (needle.data <:+: hay.data)

/-- The component state of `AdminPage` that `handleFilterUsers` touches:
the fetched list (`userList.current`), the displayed list
(`filterUserList`) and the input value. -/
structure AdminPageState where
  userListCurrent : List Users
  filterUserList : List Users
  inputValue : String
deriving Repr

/-- `handleFilterUsers` from AdminPage/index.tsx: stores the input, and
sets the displayed list to the full fetched list when the input is empty,
otherwise to the users whose lowercased username contains the lowercased
input. -/
def handleFilterUsers (st : AdminPageState) (input : String) : AdminPageState :=
  let st := { st with inputValue := input }
  if input = "" then
    { st with filterUserList := st.userListCurrent }
  else
    { st with filterUserList :=
        st.userListCurrent.filter fun user =>
          strIncludes (strToLower user.username) (strToLower input) }

/-! ## C5: `PlaygroundButton`
    (src/.../flowToolbarComponent/components/playground-button.tsx) -/

/-- The inner button variants of `PlaygroundButton`. -/
inductive PlaygroundInner where
  | activeButton
  | disabledButton
deriving DecidableEq, Repr

/-- The render result of `PlaygroundButton`: either the playground modal
(`CustomIOModal`) wrapping a child, or a tooltip wrapping a child. -/
inductive PlaygroundRender where
  | ioModal (disable : Bool) (child : PlaygroundInner)
  | tooltip (child : PlaygroundInner)
deriving DecidableEq, Repr

/-- `PlaygroundButton` from playground-button.tsx:
`hasIO ? <CustomIOModal disable={!hasIO}><ActiveButton/></CustomIOModal>
       : <ShadTooltip><DisabledButton/></ShadTooltip>`. -/
def PlaygroundButton ( hasIO : Bool) : PlaygroundRender :=
  if hasIO then
    .ioModal (! hasIO) .activeButton
  else
    .tooltip .disabledButton

/-! ## C6: `NoInputView` (src/unnamed/part_002) -/

/-- The click effect wired to a `NoInputView` button. -/
inductive ChatAction where
  | sendMessage (repeatArg : Nat)
  | stopBuilding
deriving DecidableEq, Repr

/-- The control `NoInputView` renders: the run button or the stop button,
each carrying its click handler's effect. -/
inductive NoInputControl where
  | runButton (onClick : ChatAction)
  | stopButton (onClick : ChatAction)
deriving DecidableEq, Repr

/-- `NoInputView` from src/unnamed/part_002: `!isBuilding` renders the
send button whose handler awaits `sendMessage({ repeat: 1 })`; otherwise
the stop button whose handler is `stopBuilding`. -/
def NoInputView (isBuilding : Bool) : NoInputControl :=
  if !isBuilding then
    .runButton (.sendMessage 1)
  else
    .stopButton .stopBuilding

end Langflow

namespace Langflow

/-- C3: `GenericErrorComponent` renders the server-fetch error component
iff `healthCheckTimeout = "serverDown"`, the timeout error component iff
`healthCheckTimeout = "timeout"`, and the empty fragment for every other
value, `null` and `undefined` included. -/
theorem genericErrorComponent_cases (healthCheckTimeout : JSStr) :
    (GenericErrorComponent healthCheckTimeout = .fetchErrorComponent ↔
      healthCheckTimeout = .str "serverDown") ∧
    (GenericErrorComponent healthCheckTimeout = .timeoutErrorComponent ↔
      healthCheckTimeout = .str "timeout") ∧
    (healthCheckTimeout ≠ .str "serverDown" → healthCheckTimeout ≠ .str "timeout" →
      GenericErrorComponent healthCheckTimeout = .emptyFragment) := by
  rcases healthCheckTimeout with s | _ | _
  · by_cases h1 : s = "serverDown"
    · subst h1; refine ⟨by simp [GenericErrorComponent], ?_, ?_⟩ <;>
        simp [GenericErrorComponent]
    · by_cases h2 : s = "timeout"
      · subst h2; refine ⟨?_, by simp [GenericErrorComponent], ?_⟩ <;>
          simp [GenericErrorComponent]
      · refine ⟨?_, ?_, ?_⟩ <;>
          simp [GenericErrorComponent, h1, h2]
  · refine ⟨?_, ?_, ?_⟩ <;> simp [GenericErrorComponent]
  · refine ⟨?_, ?_, ?_⟩ <;> simp [GenericErrorComponent]

/-- C3 witness: at `healthCheckTimeout = null`, the component renders the
empty fragment. -/
theorem genericErrorComponent_cases_witness :
    GenericErrorComponent .null = .emptyFragment :=
  (genericErrorComponent_cases .null).2.2 (by decide) (by decide)

end Langflow

namespace Langflow

/-- C4: filtering the admin user list with the empty string displays the
whole fetched list; a non-empty filter displays exactly the users whose
lowercased username contains the lowercased input, in their original
order (a sublist); the stored fetched list is never modified, so
re-filtering with the empty input restores the full list. -/
theorem handleFilterUsers_spec (st : AdminPageState) (input : String) :
    (input = "" → (handleFilterUsers st input).filterUserList = st.userListCurrent) ∧
    (input ≠ "" →
      (handleFilterUsers st input).filterUserList =
        st.userListCurrent.filter
          (fun user => strIncludes (strToLower user.username) (strToLower input)) ∧
      (handleFilterUsers st input).filterUserList.Sublist st.userListCurrent) ∧
    (handleFilterUsers st input).userListCurrent = st.userListCurrent ∧
    (handleFilterUsers (handleFilterUsers st input) "").filterUserList =
      st.userListCurrent := by
  by_cases h : input = ""
  · subst h
    exact ⟨fun _ => rfl, fun hc => absurd rfl hc, rfl, rfl⟩
  · refine ⟨fun hc => absurd hc h, fun _ => ⟨?_, ?_⟩, ?_, ?_⟩
    · simp [handleFilterUsers, h]
    · simp only [handleFilterUsers, h, if_neg, if_false]
      exact List.filter_sublist _
    · simp [handleFilterUsers, h]
    · simp [handleFilterUsers, h]

/-- Sample users for evaluating the admin filter. -/
def demoUsers : List Users :=
  [⟨"1", "Alice"⟩, ⟨"2", "Bob"⟩, ⟨"3", "alfred"⟩]

/-- C4 witness: filtering the demo list with "aL" keeps exactly the
users whose lowercased username contains "al". -/
theorem handleFilterUsers_spec_witness :
    (handleFilterUsers ⟨demoUsers, [], ""⟩ "aL").filterUserList =
      demoUsers.filter
        (fun user => strIncludes (strToLower user.username) (strToLower "aL")) ∧
    (handleFilterUsers ⟨demoUsers, [], ""⟩ "aL").filterUserList =
      [⟨"1", "Alice"⟩, ⟨"3", "alfred"⟩] :=
  ⟨((handleFilterUsers_spec ⟨demoUsers, [], ""⟩ "aL").2.1 (by decide)).1,
   by decide⟩

/-- C5: `PlaygroundButton` renders the playground modal wrapping the
active button iff `hasIO` is true, and the tooltip wrapping the disabled
button iff `hasIO` is false; the `disable` prop passed to the modal is
`!hasIO`, i.e. `false` whenever the modal is rendered. -/
theorem playgroundButton_cases ( hasIO : Bool) :
    (PlaygroundButton hasIO = .ioModal false .activeButton ↔ hasIO = true) ∧
    (PlaygroundButton hasIO = .tooltip .disabledButton ↔ hasIO = false) ∧
    ((∃ d c, PlaygroundButton hasIO = .ioModal d c) ↔
      ¬ (∃ c, PlaygroundButton hasIO = .tooltip c)) := by
  cases hasIO <;> simp [PlaygroundButton]

/-- C6: `NoInputView` renders the run button, whose click handler calls
`sendMessage` with `repeat = 1`, exactly when `isBuilding` is false, and
the stop button, whose click handler is `stopBuilding`, exactly when
`isBuilding` is true; exactly one of the two is rendered. -/
theorem noInputView_cases (isBuilding : Bool) :
    (isBuilding = false → NoInputView isBuilding = .runButton (.sendMessage 1)) ∧
    (isBuilding = true → NoInputView isBuilding = .stopButton .stopBuilding) ∧
    ((∃ a, NoInputView isBuilding = .runButton a) ↔
      ¬ (∃ a, NoInputView isBuilding = .stopButton a)) := by
  cases isBuilding <;> simp [NoInputView]

/-- C6 witness: with `isBuilding = false` the run button is rendered and
its click handler sends one message (`repeat = 1`). -/
theorem noInputView_cases_witness :
    NoInputView false = .runButton (.sendMessage 1) :=
  (noInputView_cases false).1 rfl

end Langflow

namespace Langflow

/-! ## C2: `useSwitchLocale`
    (src/src/frontend/src/controllers/API/queries/locale/use-put-switch-locale.ts)

The HTTP client is modelled as a function from requests to responses; a
call returns the list of requests it issued together with its result, so
"exactly one PUT, no retry" is the statement that the request trace is a
one-element list. `getURL("LOCALE")` lives outside this slice and is
abstracted as the string parameter `localeURL`. -/

/-- The payload of the switch-locale mutation. -/
structure ISwitchLocale where
  lang : String
deriving DecidableEq, Repr

/-- An HTTP request as issued through the shared `api` client. -/
structure HttpRequest where
  method : String
  url : String
  body : ISwitchLocale
deriving DecidableEq, Repr

/-- An HTTP response; `data` is the body. -/
structure HttpResponse where
  data : String
deriving DecidableEq, Repr

/-- `switchLocaleFn` from use-put-switch-locale.ts:
`await api.put(`${getURL("LOCALE")}/switch/`, payload)` and return
`response.data`. The first component is the trace of requests issued. -/
def switchLocaleFn (api : HttpRequest → HttpResponse) (localeURL : String)
    (payload : ISwitchLocale) : List HttpRequest × String :=
  let request : HttpRequest := ⟨"PUT", localeURL ++ "/switch/", payload⟩
  let response := api request
  ([request], response.data)

/-- The function `useSwitchLocale` registers with `mutate`:
`async (payload) => { const res = await switchLocaleFn(payload); return res; }`
— it forwards to `switchLocaleFn` and adds nothing. -/
def useSwitchLocaleMutationFn (api : HttpRequest → HttpResponse)
    (localeURL : String) (payload : ISwitchLocale) : List HttpRequest × String :=
  switchLocaleFn api localeURL payload

/-- C2: one invocation of the switch-locale mutation function issues
exactly one request — a PUT to `${getURL("LOCALE")}/switch/` carrying the
payload — and resolves to `response.data` unchanged, for every behaviour
of the HTTP client; no retry is added by this code. -/
theorem useSwitchLocale_one_put (api : HttpRequest → HttpResponse)
    (localeURL : String) (payload : ISwitchLocale) :
    (useSwitchLocaleMutationFn api localeURL payload).1 =
      [⟨"PUT", localeURL ++ "/switch/", payload⟩] ∧
    (useSwitchLocaleMutationFn api localeURL payload).1.length = 1 ∧
    (useSwitchLocaleMutationFn api localeURL payload).2 =
      (api ⟨"PUT", localeURL ++ "/switch/", payload⟩).data :=
  ⟨rfl, rfl, rfl⟩

/-! ## C8: `useI18nStore` (src/unnamed/part_005) -/

/-- The declared `Language` union type `'en' | 'zh'`
(src/unnamed/part_005, types). -/
inductive Language where
  | en
  | zh
deriving DecidableEq, Repr

/-- The string a `Language` value is at runtime. -/
def Language.code : Language → String
  | .en => "en"
  | .zh => "zh"

/-- `JSON.stringify` on a string value: wrap in quotes, escaping quotes
and backslashes (the only escapes the stored language codes can need). -/
def jsonStringifyStr (s : String) : String :=
  ⟨'"' :: (s.data.flatMap fun c =>
    if c = '"' ∨ c = '\\' then ['\\', c] else [c]) ++ ['"']⟩

/-- `JSON.parse` restricted to string literals without escapes (the shape
`setLanguage` stores for the language codes); `none` models the exception
on anything else. -/
def jsonParseStr (s : String) : Option String :=
  match s.data with
  | '"' :: rest =>
    if rest ≠ [] ∧ rest.getLast? = some '"' then
      let mid := rest.dropLast
      if mid.all fun c => ¬ (c = '"' ∨ c = '\\') then some ⟨mid⟩ else none
    else none
  | _ => none

/-- The store state of `useI18nStore` plus the `localStorage` slot under
the key `"language"` that it reads and writes. -/
structure I18nStoreState where
  lang : String
  localStorageLanguage : Option String
deriving DecidableEq, Repr

/-- The initializer of the `lang` field in `useI18nStore`: parse the
stored value if present, else take the part of `navigator.language`
(falling back to `navigator.languages[0]` when it is falsy) before the
first `'-'`. `none` models the `JSON.parse` exception. -/
def initLang (stored : Option String) (navLanguage : String)
    (navLanguages : List String) : Option String :=
  match stored with
  | some s => jsonParseStr s
  | none =>
    let browserLanguage :=
      if navLanguage ≠ "" then navLanguage else navLanguages.headD ""
    some ⟨browserLanguage.data.takeWhile fun c => c ≠ '-'⟩

/-- `setLanguage` from `useI18nStore`: write `JSON.stringify(lang)` to
`localStorage["language"]` and set the store's `lang`. -/
def setLanguage (st : I18nStoreState) (lang : Language) : I18nStoreState :=
  { st with
    localStorageLanguage := some (jsonStringifyStr lang.code),
    lang := lang.code }

/-- C8: for every language `l`, `setLanguage l` stores
`JSON.stringify(l)` under `"language"` and sets `lang` to `l`, and an
initialization that finds that stored value yields `lang = l` again; when
nothing is stored, the initial `lang` is `navigator.language` up to the
first `'-'`, which need not be one of the declared languages
(`"fr-FR"` gives `"fr"`, not a `Language` code). -/
theorem useI18nStore_roundtrip (st : I18nStoreState) (l : Language)
    (navLanguage : String) (navLanguages : List String) :
    (setLanguage st l).localStorageLanguage = some (jsonStringifyStr l.code) ∧
    (setLanguage st l).lang = l.code ∧
    initLang (setLanguage st l).localStorageLanguage navLanguage navLanguages =
      some l.code ∧
    (initLang none "fr-FR" [] = some "fr" ∧ ∀ l' : Language, l'.code ≠ "fr") := by
  refine ⟨rfl, rfl, ?_, ?_, ?_⟩
  · cases l <;> rfl
  · rfl
  · intro l'; cases l' <;> decide

end Langflow

namespace Langflow

/-! ## C9: `SignUp` (src/src/frontend/src/pages/SignUpPage/index.tsx) -/

/-- JS `s.trim()`: strip leading and trailing whitespace. -/
def strTrim (s : String) : String :=
  ⟨((s.data.dropWhile fun c => c.isWhitespace).reverse.dropWhile
      fun c => c.isWhitespace).reverse⟩

/-- The sign-up page input state (`signUpInputStateType`). -/
structure SignUpInputState where
  password : String
  cnfPassword : String
  username : String
deriving DecidableEq, Repr

/-- The payload `handleSignup` submits (`UserInputType`). -/
structure UserInputType where
  username : String
  password : String
deriving DecidableEq, Repr

/-- The state-synchronizing effect of `SignUp`: the guard chain computing
`isDisabled` from `password`, `cnfPassword` and `username`. -/
def computeDisableBtn (st : SignUpInputState) : Bool :=
  if st.password ≠ st.cnfPassword then true
  else if st.password = "" ∨ st.cnfPassword = "" then true
  else if st.username = "" then true
  else false

/-- `handleSignup` from SignUpPage/index.tsx: build the new-user payload
from the trimmed username and password. -/
def handleSignup (st : SignUpInputState) : UserInputType :=
  { username := strTrim st.username, password := strTrim st.password }

/-- A click on the submit button: a disabled button does not fire, an
enabled one invokes `handleSignup`. -/
def clickSignUpSubmit (st : SignUpInputState) (isDisabled : Bool) :
    Option UserInputType :=
  if isDisabled then none else some (handleSignup st)

/-- C9: after the effect runs, the submit button is disabled iff the
password differs from its confirmation or any of password, confirmation,
username is empty; hence `handleSignup` only ever fires with a non-empty
username and a non-empty password equal to its confirmation, and the
payload carries the trimmed username and password. -/
theorem signUp_disable_spec (st : SignUpInputState) :
    (computeDisableBtn st = true ↔
      st.password ≠ st.cnfPassword ∨ st.password = "" ∨
        st.cnfPassword = "" ∨ st.username = "") ∧
    (∀ p, clickSignUpSubmit st (computeDisableBtn st) = some p →
      st.username ≠ "" ∧ st.password ≠ "" ∧ st.password = st.cnfPassword ∧
      p = { username := strTrim st.username, password := strTrim st.password }) := by
  have hiff : computeDisableBtn st = true ↔
      st.password ≠ st.cnfPassword ∨ st.password = "" ∨
        st.cnfPassword = "" ∨ st.username = "" := by
    by_cases h1 : st.password = st.cnfPassword <;>
      by_cases h2 : st.password = "" <;>
      by_cases h3 : st.cnfPassword = "" <;>
      by_cases h4 : st.username = "" <;>
      simp [computeDisableBtn, h1, h2, h3, h4]
  refine ⟨hiff, fun p hp => ?_⟩
  have hd : computeDisableBtn st = false := by
    cases hcd : computeDisableBtn st
    · rfl
    · rw [clickSignUpSubmit, hcd] at hp
      simp at hp
  have hprop : ¬ (st.password ≠ st.cnfPassword ∨ st.password = "" ∨
      st.cnfPassword = "" ∨ st.username = "") := by
    rw [← hiff, hd]; simp
  push_neg at hprop
  obtain ⟨h1, h2, _h3, h4⟩ := hprop
  rw [clickSignUpSubmit, hd] at hp
  simp at hp
  exact ⟨h4, h2, h1, hp.symm⟩

/-- C9 witness: with matching non-empty passwords and username
`" bob "`, the button is enabled and the submitted payload is the
trimmed `"bob"` with password `"pw"`. -/
theorem signUp_disable_spec_witness :
    (" bob " : String) ≠ "" ∧ ("pw" : String) ≠ "" ∧
      ("pw" : String) = "pw" ∧
      ({ username := "bob", password := "pw" } : UserInputType) =
        { username := strTrim " bob ", password := strTrim "pw" } :=
  (signUp_disable_spec ⟨"pw", "pw", " bob "⟩).2
    { username := "bob", password := "pw" } (by decide)

end Langflow

namespace Langflow

/-! ## C10: `handlePublishedSwitch`
    (src/.../flowToolbarComponent/components/deploy-dropdown.tsx)

Only the `onSuccess` continuation of the PATCH is modelled: the claim is
about what happens when the request succeeds. The translation function
`t` is a parameter. -/

/-- A flow record; `id` plus an opaque payload standing for the other
fields, so "the identical unchanged flow object" is expressible. -/
structure FlowType where
  id : String
  payload : String
deriving DecidableEq, Repr

/-- An alert as stored by `setErrorData`. -/
structure AlertData where
  title : String
  list : List String
deriving DecidableEq, Repr

/-- The store state `handlePublishedSwitch` touches: the flows list of
the flows-manager store, the current flow of the flow store, and the
alert store's error slot. -/
structure DeployState where
  flows : Option (List FlowType)
  currentFlow : Option FlowType
  errorData : Option AlertData
deriving DecidableEq, Repr

/-- The `onSuccess` branch of `handlePublishedSwitch` from
deploy-dropdown.tsx: with `flows` defined, map the list replacing the
flow with the updated flow's id and set the current flow; otherwise set
an error alert. -/
def handlePublishedSwitchOnSuccess (t : String → String) (st : DeployState)
    (updatedFlow : FlowType) : DeployState :=
  match st.flows with
  | some flows =>
    { st with
      flows := some (flows.map fun flow =>
        if flow.id = updatedFlow.id then updatedFlow else flow),
      currentFlow := some updatedFlow }
  | none =>
    { st with
      errorData := some ⟨t "flow.share.error.saveFailedTitle",
        [t "flow.share.error.flowsUndefined"]⟩ }

/-- C10: on success with `flows` defined, the flows list is replaced by
one of the same length in which every element with the updated flow's id
becomes the updated flow and every other element is the identical
unchanged object, and the current flow becomes the updated flow (the
error slot untouched); with `flows` undefined, flows and current flow
are unchanged and an error alert is set. -/
theorem handlePublishedSwitch_onSuccess_spec (t : String → String)
    (st : DeployState) (updatedFlow : FlowType) :
    (∀ fs, st.flows = some fs →
      ∃ fs', (handlePublishedSwitchOnSuccess t st updatedFlow).flows = some fs' ∧
        fs'.length = fs.length ∧
        (∀ i (hi : i < fs.length) (hi' : i < fs'.length),
          ((fs.get ⟨i, hi⟩).id = updatedFlow.id →
            fs'.get ⟨i, hi'⟩ = updatedFlow) ∧
          ((fs.get ⟨i, hi⟩).id ≠ updatedFlow.id →
            fs'.get ⟨i, hi'⟩ = fs.get ⟨i, hi⟩)) ∧
        (handlePublishedSwitchOnSuccess t st updatedFlow).currentFlow =
          some updatedFlow ∧
        (handlePublishedSwitchOnSuccess t st updatedFlow).errorData =
          st.errorData) ∧
    (st.flows = none →
      (handlePublishedSwitchOnSuccess t st updatedFlow).flows = st.flows ∧
      (handlePublishedSwitchOnSuccess t st updatedFlow).currentFlow =
        st.currentFlow ∧
      (handlePublishedSwitchOnSuccess t st updatedFlow).errorData =
        some ⟨t "flow.share.error.saveFailedTitle",
          [t "flow.share.error.flowsUndefined"]⟩) := by
  constructor
  · intro fs hfs
    refine ⟨fs.map fun flow =>
      if flow.id = updatedFlow.id then updatedFlow else flow, ?_, ?_, ?_, ?_, ?_⟩
    · simp [handlePublishedSwitchOnSuccess, hfs]
    · simp
    · intro i hi hi2
      have hmap : (fs.map fun flow =>
          if flow.id = updatedFlow.id then updatedFlow else flow).get ⟨i, hi2⟩ =
          if (fs.get ⟨i, hi⟩).id = updatedFlow.id then updatedFlow
          else fs.get ⟨i, hi⟩ := by
        simp [List.get_eq_getElem, List.getElem_map]
      constructor
      · intro heq; rw [hmap, if_pos heq]
      · intro hne; rw [hmap, if_neg hne]
    · simp [handlePublishedSwitchOnSuccess, hfs]
    · simp [handlePublishedSwitchOnSuccess, hfs]
  · intro hfs
    refine ⟨?_, ?_, ?_⟩ <;> simp [handlePublishedSwitchOnSuccess, hfs]

/-- C10 witness: a concrete two-flow state where the first flow's id
matches the updated flow. -/
theorem handlePublishedSwitch_onSuccess_spec_witness :
    ∃ fs', (handlePublishedSwitchOnSuccess (fun k => k)
        ⟨some [⟨"f1", "old"⟩, ⟨"f2", "keep"⟩], none, none⟩
        ⟨"f1", "new"⟩).flows = some fs' ∧
      fs'.length = ([⟨"f1", "old"⟩, ⟨"f2", "keep"⟩] : List FlowType).length ∧
      (∀ i (hi : i < ([⟨"f1", "old"⟩, ⟨"f2", "keep"⟩] : List FlowType).length)
          (hi' : i < fs'.length),
        ((([⟨"f1", "old"⟩, ⟨"f2", "keep"⟩] : List FlowType).get ⟨i, hi⟩).id =
            ("f1" : String) → fs'.get ⟨i, hi'⟩ = ⟨"f1", "new"⟩) ∧
        ((([⟨"f1", "old"⟩, ⟨"f2", "keep"⟩] : List FlowType).get ⟨i, hi⟩).id ≠
            ("f1" : String) →
          fs'.get ⟨i, hi'⟩ =
            ([⟨"f1", "old"⟩, ⟨"f2", "keep"⟩] : List FlowType).get ⟨i, hi⟩)) ∧
      (handlePublishedSwitchOnSuccess (fun k => k)
        ⟨some [⟨"f1", "old"⟩, ⟨"f2", "keep"⟩], none, none⟩
        ⟨"f1", "new"⟩).currentFlow = some ⟨"f1", "new"⟩ ∧
      (handlePublishedSwitchOnSuccess (fun k => k)
        ⟨some [⟨"f1", "old"⟩, ⟨"f2", "keep"⟩], none, none⟩
        ⟨"f1", "new"⟩).errorData = none :=
  (handlePublishedSwitch_onSuccess_spec (fun k => k)
    ⟨some [⟨"f1", "old"⟩, ⟨"f2", "keep"⟩], none, none⟩ ⟨"f1", "new"⟩).1
    [⟨"f1", "old"⟩, ⟨"f2", "keep"⟩] rfl

end Langflow

namespace Langflow

/-! ## C1: `useMessageLocale` / `useFormLocale`
    (src/src/frontend/src/i18n/locale.ts)

Both hooks wrap an object literal of translations in
`useMemo(() => ({...}), [])` — note the dependency array in the source is
empty, while the sibling hooks in the same file pass `[t]`. React's
`useMemo` recomputes only when the dependency array changes between
renders, so these two objects are computed once, with the translation
function of the first render. -/

/-- The object literal `useMessageLocale` computes from `t`, as an
association list (key, `t` applied to the dotted key path), in source
order. -/
def messageLocale (t : String → String) : List (String × String) :=
  [("DEFAULT_TABLE_ALERT_MSG", t "messages.alertMessage"),
   ("DEFAULT_TABLE_ALERT_TITLE", t "messages.noData"),
   ("NO_COLUMN_DEFINITION_ALERT_TITLE", t "messages.noColumnDefinitionTitle"),
   ("NO_COLUMN_DEFINITION_ALERT_DESCRIPTION",
     t "messages.noColumnDefinitionDescription"),
   ("FS_ERROR_TEXT", t "messages.fsErrorText"),
   ("ERROR_UPDATING_COMPONENT", t "messages.errorUpdatingComponent"),
   ("TITLE_ERROR_UPDATING_COMPONENT", t "messages.titleErrorUpdatingComponent"),
   ("EMPTY_INPUT_SEND_MESSAGE", t "messages.emptyInputSend"),
   ("EMPTY_OUTPUT_SEND_MESSAGE", t "messages.emptyOutputSend"),
   ("CSV_VIEW_ERROR_TITLE", t "messages.csvViewErrorTitle"),
   ("CSV_NO_DATA_ERROR", t "messages.csvNoDataError"),
   ("PDF_VIEW_CONSTANT", t "messages.pdfViewConstant"),
   ("CSV_ERROR", t "messages.csvError"),
   ("PDF_LOAD_ERROR_TITLE", t "messages.pdfLoadErrorTitle"),
   ("PDF_CHECK_FLOW", t "messages.pdfCheckFlow"),
   ("PDF_ERROR_TITLE", t "messages.pdfErrorTitle"),
   ("PDF_LOAD_ERROR", t "messages.pdfLoadError"),
   ("IMG_VIEW_CONSTANT", t "messages.imgViewConstant"),
   ("IMG_VIEW_ERROR_MSG", t "messages.imgViewErrorMsg"),
   ("IMG_VIEW_ERROR_TITLE", t "messages.imgViewErrorTitle"),
   ("FLOW_BUILT_FAILED", t "messages.flowBuildFailed"),
   ("FLOW_BUILT_SUCCESSFULLY", t "messages.flowBuiltSuccessfully")]

/-- The object literal `useFormLocale` computes from `t` (the
`forformsm.` path is as written in the source). -/
def formLocale (t : String → String) : List (String × String) :=
  [("DEFAULT_PLACEHOLDER", t "forms.defaultPlaceholder"),
   ("RECEIVING_INPUT_VALUE", t "forformsm.receivingInputValue"),
   ("SELECT_AN_OPTION", t "forms.selectOptions"),
   ("DEFAULT_TOOLSET_PLACEHOLDER", t "forms.defaultToolsetPlaceholder"),
   ("EDIT_TEXT_PLACEHOLDER", t "forms.editTextPlaceholder"),
   ("EDIT_TEXT_MODAL_TITLE", t "forms.editTextModalTitle"),
   ("TEXT_DIALOG_TITLE", t "forms.textDialogTitle")]

/-- React `useMemo` semantics for one render: with no previous cell the
value is computed and cached together with the deps array; on a re-render
the cached value is returned when the deps array equals the cached one,
and the value is recomputed otherwise. Returns (hook result, new cell). -/
def useMemoStep {α δ : Type} [DecidableEq δ] (compute : Unit → α)
    (deps : List δ) (prev : Option (α × List δ)) : α × (α × List δ) :=
  match prev with
  | none => let v := compute (); (v, (v, deps))
  | some (v, d) =>
    if deps = d then (v, (v, d))
    else let v2 := compute (); (v2, (v2, deps))

/-- One render of `useMessageLocale` with the active translation
function `t`: the memo body closes over `t`, the dependency array is `[]`
exactly as in the source. -/
def renderUseMessageLocale (t : String → String)
    (prev : Option (List (String × String) × List Unit)) :
    List (String × String) × (List (String × String) × List Unit) :=
  useMemoStep (fun _ => messageLocale t) ([] : List Unit) prev

/-- One render of `useFormLocale`, dependency array `[]` as in the
source. -/
def renderUseFormLocale (t : String → String)
    (prev : Option (List (String × String) × List Unit)) :
    List (String × String) × (List (String × String) × List Unit) :=
  useMemoStep (fun _ => formLocale t) ([] : List Unit) prev

/-- The object `useMessageLocale` returns on a second render: first
render with `t1`, then a re-render with the new translation function
`t2` (e.g. after a language switch). -/
def useMessageLocaleSecondRender (t1 t2 : String → String) :
    List (String × String) :=
  (renderUseMessageLocale t2 (some (renderUseMessageLocale t1 none).2)).1

/-- The object `useFormLocale` returns on a second render. -/
def useFormLocaleSecondRender (t1 t2 : String → String) :
    List (String × String) :=
  (renderUseFormLocale t2 (some (renderUseFormLocale t1 none).2)).1

/-- A concrete "English" translation function. -/
def tEn (key : String) : String := "en:" ++ key

/-- A concrete "Chinese" translation function. -/
def tZh (key : String) : String := "zh:" ++ key

/-- C1 fails on the code: at the first render the hooks do map every key
to `t` of its dotted path, but because the dependency array in the
source is `[]` (not `[t]`), a re-render with the new translation
function after a language switch still returns the object built with the
old one — `useMessageLocaleSecondRender tEn tZh` equals
`messageLocale tEn`, not `messageLocale tZh` as the claim requires
(they differ, e.g. at `EMPTY_INPUT_SEND_MESSAGE`), and likewise for the
form hook. -/
theorem useMessageLocale_stale_after_switch :
    (renderUseMessageLocale tEn none).1 = messageLocale tEn ∧
    (renderUseFormLocale tEn none).1 = formLocale tEn ∧
    useMessageLocaleSecondRender tEn tZh = messageLocale tEn ∧
    useMessageLocaleSecondRender tEn tZh ≠ messageLocale tZh ∧
    (messageLocale tEn).lookup "EMPTY_INPUT_SEND_MESSAGE" =
      some "en:messages.emptyInputSend" ∧
    (messageLocale tZh).lookup "EMPTY_INPUT_SEND_MESSAGE" =
      some "zh:messages.emptyInputSend" ∧
    useFormLocaleSecondRender tEn tZh = formLocale tEn ∧
    useFormLocaleSecondRender tEn tZh ≠ formLocale tZh := by
  refine ⟨rfl, rfl, rfl, ?_, by decide, by decide, rfl, ?_⟩ <;> decide

end Langflow

namespace Langflow

/-! ## C7: `regexHighlight` (src/src/frontend/src/constants/constants.ts)

`export const regexHighlight = /(```[\s\S]*?```)|(\{+)([^{}]+)(\}+)/g;`

The pattern is embedded as a small regex AST with a relational matching
semantics carrying capture groups. `star` is used for both greedy `*`
and lazy `*?`: they accept the same strings, laziness only affects which
match a backtracking engine prefers, and the claim quantifies over the
possible matches. -/

/-- Regular expressions over characters with numbered capture groups
(just the constructs `regexHighlight` uses). -/
inductive Reg where
  | eps
  | lit (c : Char)
  | cls (p : Char → Bool)
  | cat (r s : Reg)
  | alt (r s : Reg)
  | star (r : Reg)
  | group (idx : Nat) (r : Reg)

/-- `r+` — one copy followed by a star. -/
def Reg.plusR (r : Reg) : Reg := .cat r (.star r)

/-- A literal character sequence. -/
def Reg.strL : List Char → Reg
  | [] => .eps
  | c :: cs => .cat (.lit c) (Reg.strL cs)

/-- Matching semantics with captures: `Sem r u g` holds when the
character list `u` matches `r` and the groups capture as recorded by
`g` (group index paired with the captured characters, in order of
opening; no group of the pattern sits under a quantifier, so each group
occurs at most once). -/
inductive Sem : Reg → List Char → List (Nat × List Char) → Prop where
  | eps : Sem .eps [] []
  | lit (c : Char) : Sem (.lit c) [c] []
  | cls {p : Char → Bool} {c : Char} : p c = true → Sem (.cls p) [c] []
  | cat {r s : Reg} {u v : List Char} {gu gv} :
      Sem r u gu → Sem s v gv → Sem (.cat r s) (u ++ v) (gu ++ gv)
  | altL {r s : Reg} {u g} : Sem r u g → Sem (.alt r s) u g
  | altR {r s : Reg} {u g} : Sem s u g → Sem (.alt r s) u g
  | starNil {r : Reg} : Sem (.star r) [] []
  | starCons {r : Reg} {u v gu gv} :
      Sem r u gu → Sem (.star r) v gv → Sem (.star r) (u ++ v) (gu ++ gv)
  | group {i : Nat} {r : Reg} {u g} : Sem r u g → Sem (.group i r) u ((i, u) :: g)

/-- First alternative of `regexHighlight`: `` (```[\s\S]*?```) ``,
capture group 1. -/
def regexCodeBlock : Reg :=
  .group 1 (.cat (Reg.strL "```".data)
    (.cat (.star (.cls fun _ => true)) (Reg.strL "```".data)))

/-- Second alternative of `regexHighlight`: the brace pattern
`` (\{+)([^{}]+)(\}+) ``, capture groups 2, 3 and 4. -/
def regexVariable : Reg :=
  .cat (.group 2 (Reg.plusR (.lit '{')))
    (.cat (.group 3 (Reg.plusR (.cls fun c => !(c == '{' || c == '}'))))
      (.group 4 (Reg.plusR (.lit '}'))))

/-- `regexHighlight` from constants.ts: the alternation of the fenced
code-block branch and the brace-variable branch. -/
def regexHighlight : Reg := .alt regexCodeBlock regexVariable

/-- Inverting a match of a literal sequence: the input is exactly that
sequence and nothing is captured. -/
theorem sem_strL_inv : ∀ (cs : List Char) {u g}, Sem (Reg.strL cs) u g →
    u = cs ∧ g = [] := by
  intro cs
  induction cs with
  | nil =>
    intro u g h
    rw [Reg.strL] at h
    cases h
    exact ⟨rfl, rfl⟩
  | cons c t ih =>
    intro u g h
    rw [Reg.strL] at h
    cases h with
    | cat h1 h2 =>
      cases h1
      obtain ⟨hu, hg⟩ := ih h2
      subst hu; subst hg
      exact ⟨rfl, rfl⟩

/-- Inverting a star whose body only matches single characters with
property `P` and captures nothing. -/
theorem sem_star_single_inv {r : Reg} {u : List Char} {g} (h : Sem r u g) :
    ∀ (r₀ : Reg) (P : Char → Prop), r = .star r₀ →
    (∀ u' g', Sem r₀ u' g' → g' = [] ∧ ∃ c, u' = [c] ∧ P c) →
    g = [] ∧ ∀ c ∈ u, P c := by
  induction h with
  | eps => intro r₀ P hr _; cases hr
  | lit c => intro r₀ P hr _; cases hr
  | cls _ => intro r₀ P hr _; cases hr
  | cat _ _ _ _ => intro r₀ P hr _; cases hr
  | altL _ _ => intro r₀ P hr _; cases hr
  | altR _ _ => intro r₀ P hr _; cases hr
  | group _ _ => intro r₀ P hr _; cases hr
  | starNil => intro r₀ P _ _; exact ⟨rfl, by simp⟩
  | starCons h1 h2 ih1 ih2 =>
    intro r₀ P hr hatom
    injection hr with hr0
    obtain ⟨hg1, c, hu1, hPc⟩ := hatom _ _ (hr0 ▸ h1)
    obtain ⟨hg2, hall⟩ := ih2 r₀ P (by rw [hr0]) hatom
    subst hg1; subst hg2; subst hu1
    refine ⟨rfl, ?_⟩
    intro c' hc'
    rcases List.mem_append.mp hc' with hc' | hc'
    · rw [List.mem_singleton.mp hc']; exact hPc
    · exact hall c' hc'

/-- Inverting `r₀+` for a single-character body: the input is a
non-empty run of characters with property `P`, nothing captured. -/
theorem sem_plus_single_inv {r₀ : Reg} {P : Char → Prop} {u g}
    (hatom : ∀ u' g', Sem r₀ u' g' → g' = [] ∧ ∃ c, u' = [c] ∧ P c)
    (h : Sem (Reg.plusR r₀) u g) :
    g = [] ∧ u ≠ [] ∧ ∀ c ∈ u, P c := by
  rw [Reg.plusR] at h
  cases h with
  | cat h1 h2 =>
    obtain ⟨hg1, c, hu1, hPc⟩ := hatom _ _ h1
    obtain ⟨hg2, hall⟩ := sem_star_single_inv h2 r₀ P rfl hatom
    subst hg1; subst hg2; subst hu1
    refine ⟨rfl, by simp, ?_⟩
    intro c' hc'
    rcases List.mem_append.mp hc' with hc' | hc'
    · rw [List.mem_singleton.mp hc']; exact hPc
    · exact hall c' hc'

/-- The single-character shape of a literal body. -/
theorem sem_lit_atom (c : Char) : ∀ u g, Sem (.lit c) u g →
    g = [] ∧ ∃ c', u = [c'] ∧ c' = c := by
  intro u g h
  cases h
  exact ⟨rfl, c, rfl, rfl⟩

/-- The single-character shape of a character-class body. -/
theorem sem_cls_atom (p : Char → Bool) : ∀ u g, Sem (.cls p) u g →
    g = [] ∧ ∃ c, u = [c] ∧ p c = true := by
  intro u g h
  cases h with
  | cls hp => exact ⟨rfl, _, rfl, hp⟩

end Langflow

namespace Langflow

/-- A single literal character matches `c+`. -/
theorem sem_plus_lit_one (c : Char) : Sem (Reg.plusR (.lit c)) [c] [] :=
  Sem.cat (Sem.lit c) Sem.starNil

/-- A doubled literal character matches `c+`. -/
theorem sem_plus_lit_two (c : Char) : Sem (Reg.plusR (.lit c)) [c, c] [] :=
  Sem.cat (Sem.lit c) (Sem.starCons (Sem.lit c) Sem.starNil)

/-- Every list of characters satisfying `p` matches `[p]*`. -/
theorem sem_star_cls_all (p : Char → Bool) :
    ∀ (l : List Char), (∀ c ∈ l, p c = true) → Sem (.star (.cls p)) l [] := by
  intro l
  induction l with
  | nil => intro _; exact Sem.starNil
  | cons c t ih =>
    intro hall
    exact Sem.starCons (Sem.cls (hall c (by simp)))
      (ih fun x hx => hall x (by simp [hx]))

/-- Every non-empty list of characters satisfying `p` matches `[p]+`. -/
theorem sem_plus_cls_all (p : Char → Bool) (l : List Char) (hne : l ≠ [])
    (hall : ∀ c ∈ l, p c = true) : Sem (Reg.plusR (.cls p)) l [] := by
  cases l with
  | nil => exact absurd rfl hne
  | cons c t =>
    exact Sem.cat (Sem.cls (hall c (by simp)))
      (sem_star_cls_all p t fun x hx => hall x (by simp [hx]))

/-- `regexHighlight` matches the single-braced variable, capturing the
brace runs and the bare variable name. -/
theorem sem_highlight_var_one :
    Sem regexHighlight ('{' :: "variable".data ++ ['}'])
      [(2, ['{']), (3, "variable".data), (4, ['}'])] :=
  Sem.altR (Sem.cat (Sem.group (sem_plus_lit_one '{'))
    (Sem.cat
      (Sem.group (sem_plus_cls_all _ "variable".data (by decide) (by decide)))
      (Sem.group (sem_plus_lit_one '}'))))

/-- `regexHighlight` matches the double-braced variable, capturing the
brace runs and the bare variable name. -/
theorem sem_highlight_var_two :
    Sem regexHighlight ('{' :: '{' :: "variable".data ++ ['}', '}'])
      [(2, ['{', '{']), (3, "variable".data), (4, ['}', '}'])] :=
  Sem.altR (Sem.cat (Sem.group (sem_plus_lit_two '{'))
    (Sem.cat
      (Sem.group (sem_plus_cls_all _ "variable".data (by decide) (by decide)))
      (Sem.group (sem_plus_lit_two '}'))))

/-- C7: every match of `regexHighlight` is either, captured as group 1,
a fenced code block beginning and ending with three backticks, or,
captured as groups 2, 3 and 4, a non-empty run of opening braces, then
one or more characters that are neither brace, then a non-empty run of
closing braces; in particular the single- and double-braced `variable`
both match, with group 3 being the brace-free name. -/
theorem regexHighlight_match_shape :
    (∀ m g, Sem regexHighlight m g →
      (∃ p1, g = [(1, p1)] ∧ m = p1 ∧
        ∃ mid, p1 = "```".data ++ mid ++ "```".data) ∨
      (∃ p2 p3 p4, g = [(2, p2), (3, p3), (4, p4)] ∧ m = p2 ++ p3 ++ p4 ∧
        p2 ≠ [] ∧ (∀ c ∈ p2, c = '{') ∧
        p3 ≠ [] ∧ (∀ c ∈ p3, c ≠ '{' ∧ c ≠ '}') ∧
        p4 ≠ [] ∧ (∀ c ∈ p4, c = '}'))) ∧
    Sem regexHighlight ('{' :: "variable".data ++ ['}'])
      [(2, ['{']), (3, "variable".data), (4, ['}'])] ∧
    Sem regexHighlight ('{' :: '{' :: "variable".data ++ ['}', '}'])
      [(2, ['{', '{']), (3, "variable".data), (4, ['}', '}'])] := by
  refine ⟨?_, sem_highlight_var_one, sem_highlight_var_two⟩
  intro m g h
  rw [regexHighlight] at h
  cases h with
  | altL h1 =>
    left
    rw [regexCodeBlock] at h1
    cases h1 with
    | group hin =>
      cases hin with
      | cat ha hb =>
        obtain ⟨hu1, hg1⟩ := sem_strL_inv _ ha
        cases hb with
        | cat hs hc =>
          obtain ⟨hgs, -⟩ := sem_star_single_inv hs _ (fun _ => True) rfl
            (fun u' g' h' => by
              obtain ⟨hg', c, hu', -⟩ := sem_cls_atom _ _ _ h'
              exact ⟨hg', c, hu', trivial⟩)
          obtain ⟨hu3, hg3⟩ := sem_strL_inv _ hc
          subst hu1; subst hg1; subst hgs; subst hu3; subst hg3
          exact ⟨_, by simp, rfl, _, (List.append_assoc _ _ _).symm⟩
  | altR h2 =>
    right
    rw [regexVariable] at h2
    cases h2 with
    | cat hA hBC =>
      cases hA with
      | group hA2 =>
        obtain ⟨hgA, hneA, hallA⟩ := sem_plus_single_inv (sem_lit_atom '{') hA2
        cases hBC with
        | cat hB hC =>
          cases hB with
          | group hB2 =>
            obtain ⟨hgB, hneB, hallB⟩ :=
              sem_plus_single_inv (sem_cls_atom _) hB2
            cases hC with
            | group hC2 =>
              obtain ⟨hgC, hneC, hallC⟩ :=
                sem_plus_single_inv (sem_lit_atom '}') hC2
              subst hgA; subst hgB; subst hgC
              refine ⟨_, _, _, by simp, by rw [List.append_assoc], hneA, hallA,
                hneB, ?_, hneC, hallC⟩
              intro c hc
              simpa using hallB c hc

end Langflow

namespace Langflow

/-- C7 witness: applying the match-shape theorem to the concrete match
of the single-braced variable; it falls into the brace branch with
group 3 the bare name. -/
theorem regexHighlight_match_shape_witness :
    (∃ p1, ([(2, ['{']), (3, "variable".data), (4, ['}'])] :
        List (Nat × List Char)) = [(1, p1)] ∧
      ('{' :: "variable".data ++ ['}']) = p1 ∧
      ∃ mid, p1 = "```".data ++ mid ++ "```".data) ∨
    (∃ p2 p3 p4, ([(2, ['{']), (3, "variable".data), (4, ['}'])] :
        List (Nat × List Char)) = [(2, p2), (3, p3), (4, p4)] ∧
      ('{' :: "variable".data ++ ['}']) = p2 ++ p3 ++ p4 ∧
      p2 ≠ [] ∧ (∀ c ∈ p2, c = '{') ∧
      p3 ≠ [] ∧ (∀ c ∈ p3, c ≠ '{' ∧ c ≠ '}') ∧
      p4 ≠ [] ∧ (∀ c ∈ p4, c = '}')) :=
  regexHighlight_match_shape.1 _ _ sem_highlight_var_one

end Langflow
